import Mathlib

/-!
Verification of the invoice-processing core (gcp-invoice-intel).

A shallow embedding, in Lean 4, of the pure/deterministic logic of the
repository: field normalization (dates, amounts, due dates), line-item
extraction and reconciliation, the deterministic file-identifier
derivation, the idempotent file-registry bookkeeping, and the pipeline
orchestration of `src/main.py`.

External collaborators (Document AI, Gemini, Cloud Storage, BigQuery's
query engine, `hashlib.md5`, the local filesystem) are modelled as
opaque parameters or explicit outcome values; everything the repository
itself computes is translated faithfully from the Python source.

Conventions of the embedding:
* Python strings are Lean `String`s; character-level work happens on
  `String.data : List Char` (ASCII inputs; Python's str methods agree
  with the ASCII model on the inputs that matter here).
* Python floats are modelled as `ℚ` (exact decimal values; the claims
  under study never depend on binary rounding, and `inf`/`nan`/`_`
  literals of Python's `float()` are outside the model and mapped to
  parse failure).
* A Python function that can raise an exception that its callers do not
  catch is modelled with `Except`/`Option`; a caught-and-defaulted
  exception becomes the default value, exactly as in the source.
-/

namespace InvoiceIntel

/-! ## `posixpath` model: `normpath`, `join`, `abspath`

`os.path.normpath` / `os.path.join` / `os.path.abspath` on POSIX,
translated from CPython's `posixpath.py`.  Paths are split on `'/'`,
`''` and `'.'` components are dropped, `'..'` collapses, and one or two
initial slashes are preserved (three or more count as one).
-/

/-- Python `path.split('/')` on the character list: split at every `'/'`,
keeping empty components (`"".split('/') == ['']`). -/
def splitSlashAux : List Char → List Char → List (List Char)
  | [], acc => [acc.reverse]
  | c :: cs, acc => if c = '/' then acc.reverse :: splitSlashAux cs [] else splitSlashAux cs (c :: acc)

def splitSlash (l : List Char) : List (List Char) := splitSlashAux l []

/-- Python `'/'.join(comps)` on character lists. -/
def joinSlash : List (List Char) → List Char
  | [] => []
  | [c] => c
  | c :: cs => c ++ '/' :: joinSlash cs

/-- The `initial_slashes` count of `posixpath.normpath`: 0 for a relative
path, 2 for exactly two leading slashes, 1 otherwise (POSIX treats three
or more leading slashes as a single one). -/
def initialSlashes (l : List Char) : Nat :=
  if ['/', '/', '/'].isPrefixOf l then 1
  else if ['/', '/'].isPrefixOf l then 2
  else if ['/'].isPrefixOf l then 1
  else 0

/-- The `..` component. -/
def dotdot : List Char := ['.', '.']

/-- One step of `normpath`'s component loop: skip `''` and `'.'`, append a
normal component, and let `'..'` either stack up (at the front of a
relative path) or pop the previous component. -/
def normStep (slashes : Nat) (acc : List (List Char)) (comp : List Char) : List (List Char) :=
  if comp = [] ∨ comp = ['.'] then acc
  else if comp ≠ dotdot ∨ (slashes = 0 ∧ acc = []) ∨ (acc ≠ [] ∧ acc.getLast? = some dotdot) then
    acc ++ [comp]
  else if acc ≠ [] then acc.dropLast
  else acc

/-- `posixpath.normpath` on the character list. -/
def normpathChars (l : List Char) : List Char :=
  if l = [] then ['.']
  else
    let slashes := initialSlashes l
    let newComps := (splitSlash l).foldl (normStep slashes) []
    let p := List.replicate slashes '/' ++ joinSlash newComps
    if p = [] then ['.'] else p

/-- `os.path.normpath` (POSIX). -/
def normpath (s : String) : String := String.mk (normpathChars s.data)

/-- `os.path.isabs` (POSIX): the path starts with `'/'`. -/
def isabs (l : List Char) : Bool := ['/'].isPrefixOf l

/-- `posixpath.join(a, b)` for two arguments. -/
def joinPath (a b : List Char) : List Char :=
  if isabs b then b
  else if a = [] ∨ a.getLast? = some '/' then a ++ b
  else a ++ '/' :: b

/-- `os.path.abspath` (POSIX): join onto the working directory when the
path is relative, then normalize.  `cwd` models `os.getcwd()`. -/
def abspathChars (cwd l : List Char) : List Char :=
  normpathChars (if isabs l then l else joinPath cwd l)

def abspath (cwd s : String) : String := String.mk (abspathChars cwd.data s.data)

/-! ### `normpath` is idempotent

`abspath` ends in a `normpath`, so `normpath (abspath cwd p) = abspath cwd p`
once `normpath` is idempotent; this is what makes the two file-identifier
implementations of the repository agree.
-/

theorem splitSlashAux_no_slash (l acc : List Char) (h : '/' ∉ l) :
    splitSlashAux l acc = [acc.reverse ++ l] := by
  induction l generalizing acc with
  | nil => simp [splitSlashAux]
  | cons c cs ih =>
    have hc : c ≠ '/' := fun hc => h (hc ▸ List.mem_cons_self c cs)
    have hcs : '/' ∉ cs := fun hm => h (List.mem_cons_of_mem c hm)
    simp [splitSlashAux, hc, ih _ hcs]

theorem splitSlashAux_append (c t acc : List Char) (h : '/' ∉ c) :
    splitSlashAux (c ++ '/' :: t) acc = (acc.reverse ++ c) :: splitSlashAux t [] := by
  induction c generalizing acc with
  | nil => simp [splitSlashAux]
  | cons a as ih =>
    have ha : a ≠ '/' := fun hc => h (hc ▸ List.mem_cons_self a as)
    have has : '/' ∉ as := fun hm => h (List.mem_cons_of_mem a hm)
    simp [splitSlashAux, ha, ih _ has]

theorem splitSlash_cons_slash (t : List Char) :
    splitSlash ('/' :: t) = [] :: splitSlash t := by
  simp [splitSlash, splitSlashAux]

theorem splitSlash_joinSlash (L : List (List Char)) (hne : L ≠ [])
    (hsf : ∀ comp ∈ L, '/' ∉ comp) : splitSlash (joinSlash L) = L := by
  induction L with
  | nil => exact absurd rfl hne
  | cons c rest ih =>
    cases rest with
    | nil =>
      simp only [joinSlash, splitSlash]
      rw [splitSlashAux_no_slash _ _ (hsf c (List.mem_cons_self c []))]
      simp
    | cons c2 rest2 =>
      have hstep : joinSlash (c :: c2 :: rest2) = c ++ '/' :: joinSlash (c2 :: rest2) := rfl
      rw [hstep]
      unfold splitSlash
      rw [splitSlashAux_append _ _ _ (hsf c (List.mem_cons_self c _))]
      have := ih (by simp) (fun comp hm => hsf comp (List.mem_cons_of_mem c hm))
      simp only [splitSlash] at this
      simp [this]

theorem splitSlashAux_slash_free (l acc : List Char) (hacc : '/' ∉ acc) :
    ∀ comp ∈ splitSlashAux l acc, '/' ∉ comp := by
  induction l generalizing acc with
  | nil =>
    intro comp hm
    simp [splitSlashAux] at hm
    subst hm
    simpa using hacc
  | cons c cs ih =>
    intro comp hm
    by_cases hc : c = '/'
    · subst hc
      simp [splitSlashAux] at hm
      rcases hm with h1 | h2
      · subst h1; simpa using hacc
      · exact ih [] (by simp) comp h2
    · simp [splitSlashAux, hc] at hm
      refine ih (c :: acc) ?_ comp hm
      intro hmem
      rcases List.mem_cons.mp hmem with h1 | h2
      · exact hc h1.symm
      · exact hacc h2

theorem splitSlash_slash_free (l : List Char) :
    ∀ comp ∈ splitSlash l, '/' ∉ comp :=
  splitSlashAux_slash_free l [] (by simp)

/-- The accumulator shape `normpath`'s component loop maintains: every kept
component is nonempty, not `'.'` and slash-free, and `'..'` components form
a (possibly empty) leading run which is empty for an absolute path. -/
def NormalAcc (slashes : Nat) (acc : List (List Char)) : Prop :=
  (∀ comp ∈ acc, comp ≠ [] ∧ comp ≠ ['.'] ∧ '/' ∉ comp) ∧
  ∃ j rest, acc = List.replicate j dotdot ++ rest ∧ dotdot ∉ rest ∧ (slashes ≠ 0 → j = 0)

theorem normalAcc_nil (s : Nat) : NormalAcc s [] :=
  ⟨by simp, 0, [], by simp, by simp, fun _ => rfl⟩

theorem normStep_preserves (s : Nat) (acc : List (List Char)) (comp : List Char)
    (h : NormalAcc s acc) (hsf : '/' ∉ comp) : NormalAcc s (normStep s acc comp) := by
  obtain ⟨helts, j, rest, hacc, hdd, hj⟩ := h
  unfold normStep
  by_cases h1 : comp = [] ∨ comp = ['.']
  · rw [if_pos h1]
    exact ⟨helts, j, rest, hacc, hdd, hj⟩
  · rw [if_neg h1]
    push_neg at h1
    obtain ⟨h1a, h1b⟩ := h1
    by_cases h2 : comp ≠ dotdot ∨ (s = 0 ∧ acc = []) ∨ (acc ≠ [] ∧ acc.getLast? = some dotdot)
    · rw [if_pos h2]
      refine ⟨?_, ?_⟩
      · intro c hm
        rcases List.mem_append.mp hm with hc | hc
        · exact helts c hc
        · simp at hc
          subst hc
          exact ⟨h1a, h1b, hsf⟩
      · by_cases hcd : comp = dotdot
        · subst hcd
          -- From h2, either the accumulator is empty or it ends in `..`;
          -- both force `rest = []` and (when `acc ≠ []`) `s = 0`.
          rcases h2 with h2a | ⟨hs0, haccnil⟩ | ⟨haccne, hlast⟩
          · exact absurd rfl h2a
          · have hj0 : j = 0 ∧ rest = [] := by
              rw [hacc] at haccnil
              rcases List.append_eq_nil.mp haccnil with ⟨hr, hrr⟩
              exact ⟨by simpa using congrArg List.length hr, hrr⟩
            refine ⟨1, [], ?_, by simp, fun hs => absurd hs0 hs⟩
            rw [hacc, hj0.1, hj0.2]
            simp
          · have hrestnil : rest = [] := by
              by_contra hne
              rw [hacc] at hlast
              have h' : rest.getLast? = some dotdot := by
                rw [List.getLast?_append_of_ne_nil _ hne] at hlast
                exact hlast
              exact hdd (List.mem_of_mem_getLast? (Option.mem_def.mpr h'))
            have hjpos : 1 ≤ j := by
              by_contra hle
              have hj0 : j = 0 := by omega
              rw [hacc, hj0, hrestnil] at haccne
              simp at haccne
            have hs0 : s = 0 := by
              by_contra hsne
              have := hj hsne
              omega
            refine ⟨j + 1, [], ?_, by simp, fun hs => absurd hs0 hs⟩
            rw [hacc, hrestnil]
            simp [List.replicate_succ']
        · refine ⟨j, rest ++ [comp], by rw [hacc]; simp, ?_, hj⟩
          intro hm
          rcases List.mem_append.mp hm with hc | hc
          · exact hdd hc
          · simp at hc
            exact hcd hc.symm
    · rw [if_neg h2]
      by_cases h3 : acc ≠ []
      · rw [if_pos h3]
        refine ⟨?_, ?_⟩
        · intro c hm
          exact helts c ((List.dropLast_sublist acc).mem hm)
        · rcases List.eq_nil_or_concat rest with hr | ⟨rest0, a, hr⟩
          · subst hr
            obtain ⟨k, hk⟩ : ∃ k, j = k + 1 := by
              rcases Nat.eq_zero_or_pos j with h0 | hp
              · rw [hacc, h0] at h3; simp at h3
              · exact ⟨j - 1, by omega⟩
            refine ⟨k, [], ?_, by simp, fun hs => by omega⟩
            rw [hacc, hk]
            simp [List.replicate_succ', List.dropLast_concat]
          · subst hr
            refine ⟨j, rest0, ?_, fun hm => hdd (by simp [List.concat_eq_append]; exact Or.inl hm), hj⟩
            rw [hacc, List.concat_eq_append, ← List.append_assoc, List.dropLast_concat]
      · rw [if_neg h3]
        exact ⟨helts, j, rest, hacc, hdd, hj⟩

theorem foldl_normStep_normal (s : Nat) (comps : List (List Char)) :
    ∀ acc, NormalAcc s acc → (∀ c ∈ comps, '/' ∉ c) →
      NormalAcc s (comps.foldl (normStep s) acc) := by
  induction comps with
  | nil => intro acc h _; exact h
  | cons c cs ih =>
    intro acc h hsf
    exact ih _ (normStep_preserves s acc c h (hsf c (List.mem_cons_self c cs)))
      (fun x hx => hsf x (List.mem_cons_of_mem c hx))

theorem normStep_nil_comp (s : Nat) (acc : List (List Char)) : normStep s acc [] = acc := by
  simp [normStep]

theorem foldl_normStep_empties (s : Nat) (k : Nat) (L : List (List Char)) (acc : List (List Char)) :
    (List.replicate k [] ++ L).foldl (normStep s) acc = L.foldl (normStep s) acc := by
  induction k with
  | zero => simp
  | succ n ih => simp [List.replicate_succ, normStep_nil_comp, ih]

theorem normStep_plain (s : Nat) (acc : List (List Char)) (comp : List Char)
    (h1 : comp ≠ []) (h2 : comp ≠ ['.']) (h3 : comp ≠ dotdot) :
    normStep s acc comp = acc ++ [comp] := by
  unfold normStep
  rw [if_neg (by tauto), if_pos (Or.inl h3)]

theorem foldl_normStep_plain (s : Nat) (rest : List (List Char)) :
    ∀ acc, (∀ c ∈ rest, c ≠ [] ∧ c ≠ ['.'] ∧ c ≠ dotdot) →
      rest.foldl (normStep s) acc = acc ++ rest := by
  induction rest with
  | nil => intro acc _; simp
  | cons c cs ih =>
    intro acc h
    obtain ⟨h1, h2, h3⟩ := h c (List.mem_cons_self c cs)
    rw [List.foldl_cons, normStep_plain s acc c h1 h2 h3,
      ih _ (fun x hx => h x (List.mem_cons_of_mem c hx))]
    simp

theorem normStep_dotdot_stack (i : Nat) :
    normStep 0 (List.replicate i dotdot) dotdot = List.replicate (i + 1) dotdot := by
  unfold normStep
  rw [if_neg (by decide)]
  rw [if_pos ?_]
  · rw [List.replicate_succ']
  · cases i with
    | zero => exact Or.inr (Or.inl ⟨rfl, rfl⟩)
    | succ n =>
      refine Or.inr (Or.inr ⟨by simp, ?_⟩)
      rw [List.replicate_succ', List.getLast?_concat]

theorem foldl_normStep_dotdots (j : Nat) :
    ∀ i, (List.replicate j dotdot).foldl (normStep 0) (List.replicate i dotdot) =
      List.replicate (i + j) dotdot := by
  induction j with
  | zero => intro i; simp
  | succ n ih =>
    intro i
    rw [List.replicate_succ, List.foldl_cons, normStep_dotdot_stack, ih (i + 1)]
    congr 1
    omega

theorem foldl_normStep_fixes (s : Nat) (L : List (List Char)) (h : NormalAcc s L) :
    L.foldl (normStep s) [] = L := by
  obtain ⟨helts, j, rest, hL, hdd, hj⟩ := h
  have hrest : ∀ c ∈ rest, c ≠ [] ∧ c ≠ ['.'] ∧ c ≠ dotdot := by
    intro c hc
    obtain ⟨e1, e2, _⟩ := helts c (by rw [hL]; exact List.mem_append_right _ hc)
    exact ⟨e1, e2, fun hcd => hdd (hcd ▸ hc)⟩
  rw [hL, List.foldl_append]
  rcases Nat.eq_zero_or_pos j with hj0 | hjpos
  · subst hj0
    simp only [List.replicate_zero, List.foldl_nil, List.nil_append]
    rw [foldl_normStep_plain s rest [] hrest]
    simp
  · have hs0 : s = 0 := by
      by_contra hsne
      have := hj hsne
      omega
    subst hs0
    have := foldl_normStep_dotdots j 0
    simp only [List.replicate_zero] at this
    rw [this]
    simp only [Nat.zero_add]
    exact foldl_normStep_plain 0 rest _ hrest

theorem joinSlash_cons_ex (c : List Char) (rest : List (List Char)) :
    ∃ t, joinSlash (c :: rest) = c ++ t := by
  cases rest with
  | nil => exact ⟨[], by simp [joinSlash]⟩
  | cons r rs => exact ⟨'/' :: joinSlash (r :: rs), rfl⟩

theorem initialSlashes_cons_ne (a : Char) (l : List Char) (h : a ≠ '/') :
    initialSlashes (a :: l) = 0 := by
  unfold initialSlashes
  have hb : (('/' : Char) == a) = false := by
    simp [beq_eq_false_iff_ne]
    exact fun hc => h hc.symm
  simp [List.isPrefixOf, hb]

theorem initialSlashes_one (a : Char) (l : List Char) (h : a ≠ '/') :
    initialSlashes ('/' :: a :: l) = 1 := by
  unfold initialSlashes
  have hb : (('/' : Char) == a) = false := by
    simp [beq_eq_false_iff_ne]
    exact fun hc => h hc.symm
  simp [List.isPrefixOf, hb]

theorem initialSlashes_two (a : Char) (l : List Char) (h : a ≠ '/') :
    initialSlashes ('/' :: '/' :: a :: l) = 2 := by
  unfold initialSlashes
  have hb : (('/' : Char) == a) = false := by
    simp [beq_eq_false_iff_ne]
    exact fun hc => h hc.symm
  simp [List.isPrefixOf, hb]

theorem initialSlashes_le_two (l : List Char) : initialSlashes l ≤ 2 := by
  unfold initialSlashes
  split <;> try omega
  split <;> try omega
  split <;> omega

theorem splitSlash_replicate_slash (k : Nat) (x : List Char) :
    splitSlash (List.replicate k '/' ++ x) = List.replicate k [] ++ splitSlash x := by
  induction k with
  | zero => simp
  | succ n ih => simp [List.replicate_succ, splitSlash_cons_slash, ih]

theorem normpathChars_ne_nil_eq (l : List Char) (hl : l ≠ []) :
    normpathChars l =
      (if List.replicate (initialSlashes l) '/' ++
          joinSlash ((splitSlash l).foldl (normStep (initialSlashes l)) []) = [] then ['.']
       else List.replicate (initialSlashes l) '/' ++
          joinSlash ((splitSlash l).foldl (normStep (initialSlashes l)) [])) := by
  unfold normpathChars
  rw [if_neg hl]

theorem normpathChars_idem (l : List Char) : normpathChars (normpathChars l) = normpathChars l := by
  by_cases hl : l = []
  · subst hl; rfl
  · rw [normpathChars_ne_nil_eq l hl]
    have hnormal : NormalAcc (initialSlashes l)
        ((splitSlash l).foldl (normStep (initialSlashes l)) []) :=
      foldl_normStep_normal _ _ [] (normalAcc_nil _) (splitSlash_slash_free l)
    have hsle : initialSlashes l ≤ 2 := initialSlashes_le_two l
    generalize hsv : initialSlashes l = s at hsle hnormal ⊢
    generalize hncv : (splitSlash l).foldl (normStep s) [] = nc at hnormal ⊢
    cases nc with
    | nil =>
      interval_cases s <;>
        simp only [joinSlash, List.replicate_succ, List.replicate_zero, List.append_nil,
          List.nil_append] <;> decide
    | cons c rest =>
      obtain ⟨hc_ne, _, hc_sf⟩ := hnormal.1 c (List.mem_cons_self c rest)
      obtain ⟨t, hjoin⟩ := joinSlash_cons_ex c rest
      obtain ⟨a, c', hca⟩ : ∃ a c', c = a :: c' := by
        cases c with
        | nil => exact absurd rfl hc_ne
        | cons a c' => exact ⟨a, c', rfl⟩
      have ha : a ≠ '/' := fun hcc => hc_sf (hcc ▸ (hca ▸ List.mem_cons_self a c'))
      have hjoin_cons : joinSlash (c :: rest) = a :: (c' ++ t) := by
        rw [hjoin, hca]; rfl
      have hp_ne : List.replicate s '/' ++ joinSlash (c :: rest) ≠ [] := by
        rw [hjoin_cons]
        cases s <;> simp [List.replicate_succ]
      rw [if_neg hp_ne]
      have hsplit : splitSlash (List.replicate s '/' ++ joinSlash (c :: rest)) =
          List.replicate s [] ++ (c :: rest) := by
        rw [splitSlash_replicate_slash]
        congr 1
        exact splitSlash_joinSlash _ (by simp)
          (fun comp hm => (hnormal.1 comp hm).2.2)
      have hslashes : initialSlashes (List.replicate s '/' ++ joinSlash (c :: rest)) = s := by
        rw [hjoin_cons]
        interval_cases s
        · simpa using initialSlashes_cons_ne a _ ha
        · simpa [List.replicate_succ] using initialSlashes_one a _ ha
        · simpa [List.replicate_succ] using initialSlashes_two a _ ha
      rw [normpathChars_ne_nil_eq _ hp_ne, hslashes, hsplit,
        foldl_normStep_empties s s (c :: rest), foldl_normStep_fixes s (c :: rest) hnormal]
      rw [if_neg hp_ne]

/-- `normpath` fixes any `abspath` output: the composition in
`BigQueryClient._generate_file_id` normalizes an already-normalized path. -/
theorem normpathChars_abspathChars (cwd l : List Char) :
    normpathChars (abspathChars cwd l) = abspathChars cwd l := by
  unfold abspathChars
  exact normpathChars_idem _

/-! ## File-identifier derivation

`hashlib.md5(...).hexdigest()` is an external collaborator; it is
modelled as an arbitrary function `md5 : String → Nat` producing the
128-bit digest value (Python's hexdigest is its 32-hex-digit rendering,
always `< 2^128`).  `uuid.UUID(hex).__str__` on a 32-hex-digit string
inserts dashes after positions 8, 12, 16 and 20.
-/

/-- The lowercase hex digit for a nibble. -/
def hexChar (n : Nat) : Char :=
  if n < 10 then Char.ofNat (48 + n) else Char.ofNat (87 + n)

/-- The low `k` nibbles of `n` as hex characters, most significant first. -/
def hexNibbles : Nat → Nat → List Char
  | 0, _ => []
  | k + 1, n => hexNibbles k (n / 16) ++ [hexChar (n % 16)]

/-- `hexdigest` of a 128-bit value: 32 lowercase hex characters, most
significant nibble first (as `hashlib.md5(...).hexdigest()` renders its
digest, zero-padded to 32 digits). -/
def hexdigest32 (n : Nat) : List Char := hexNibbles 32 n

/-- `str(uuid.UUID(h))` for a 32-hex-digit `h`: dashes inserted after the
8th, 12th, 16th and 20th characters. -/
def uuidFormat (h : List Char) : List Char :=
  h.take 8 ++ '-' :: ((h.drop 8).take 4 ++ '-' :: ((h.drop 12).take 4 ++ '-' :: ((h.drop 16).take 4 ++ '-' :: (h.drop 20))))

/-- The identifier rendered from a digest value: `str(uuid.UUID(md5hex))`. -/
def uuidOfDigest (n : Nat) : String := String.mk (uuidFormat (hexdigest32 n))

/-- `BigQueryClient._generate_file_id` (src/bigquery/client.py:187-205):
MD5 of `os.path.normpath(os.path.abspath(file_path))`, rendered as a
UUID string.  `md5` is the digest collaborator, `cwd` the process
working directory. -/
def BigQueryClient_generate_file_id (md5 : String → Nat) (cwd file_path : String) : String :=
  uuidOfDigest (md5 (normpath (abspath cwd file_path)))

/-- `InvoiceProcessor._generate_file_id` (src/main.py:37-40): MD5 of
`os.path.abspath(file_path)`, rendered as a UUID string. -/
def InvoiceProcessor_generate_file_id (md5 : String → Nat) (cwd file_path : String) : String :=
  uuidOfDigest (md5 (abspath cwd file_path))

/-! ### Injectivity of the digest rendering

`str(uuid.UUID(h))` only rearranges the 32 hex digits of the digest, so
distinct digests render to distinct identifier strings. -/

theorem hexChar_inj_lt : ∀ a < 16, ∀ b < 16, hexChar a = hexChar b → a = b := by decide

theorem hexChar_ne_dash : ∀ a < 16, hexChar a ≠ '-' := by decide

theorem hexNibbles_length (k : Nat) : ∀ n, (hexNibbles k n).length = k := by
  induction k with
  | zero => intro n; rfl
  | succ p ih => intro n; simp [hexNibbles, ih]

theorem hexNibbles_no_dash (k : Nat) : ∀ n, '-' ∉ hexNibbles k n := by
  induction k with
  | zero => intro n; simp [hexNibbles]
  | succ p ih =>
    intro n hm
    rcases List.mem_append.mp hm with hm | hm
    · exact ih _ hm
    · simp at hm
      exact hexChar_ne_dash (n % 16) (Nat.mod_lt n (by omega)) hm.symm

theorem hexNibbles_inj (k : Nat) : ∀ n m, n < 16 ^ k → m < 16 ^ k →
    hexNibbles k n = hexNibbles k m → n = m := by
  induction k with
  | zero =>
    intro n m hn hm _
    simp [Nat.pow_zero, Nat.lt_one_iff] at hn hm
    omega
  | succ p ih =>
    intro n m hn hm h
    simp only [hexNibbles] at h
    have hlen : (hexNibbles p (n / 16)).length = (hexNibbles p (m / 16)).length := by
      rw [hexNibbles_length, hexNibbles_length]
    obtain ⟨hpre, hlast⟩ := List.append_inj h hlen
    have hmod : n % 16 = m % 16 := by
      have hx : hexChar (n % 16) = hexChar (m % 16) := by simpa using hlast
      exact hexChar_inj_lt _ (Nat.mod_lt n (by omega)) _ (Nat.mod_lt m (by omega)) hx
    have hpow : (16 : Nat) ^ (p + 1) = 16 * 16 ^ p := by ring
    have hdivlt : n / 16 < 16 ^ p := Nat.div_lt_of_lt_mul (by omega)
    have hdivlt2 : m / 16 < 16 ^ p := Nat.div_lt_of_lt_mul (by omega)
    have hdiv : n / 16 = m / 16 := ih _ _ hdivlt hdivlt2 hpre
    omega

theorem filter_ne_dash_eq_self (seg : List Char) (h : '-' ∉ seg) :
    seg.filter (fun c => c != '-') = seg := by
  apply List.filter_eq_self.mpr
  intro a ha
  simp
  exact fun hc => h (hc ▸ ha)

theorem filter_dash_cons (l : List Char) :
    ('-' :: l).filter (fun c => c != '-') = l.filter (fun c => c != '-') := by
  simp [List.filter_cons]

theorem filter_uuidFormat (h : List Char) (hnd : '-' ∉ h) :
    (uuidFormat h).filter (fun c => c != '-') = h := by
  have hsub : ∀ k j : Nat, '-' ∉ (h.drop k).take j := fun k j hm =>
    hnd (List.mem_of_mem_drop (List.mem_of_mem_take hm))
  have hsub2 : ∀ k : Nat, '-' ∉ h.drop k := fun k hm => hnd (List.mem_of_mem_drop hm)
  have htk : '-' ∉ h.take 8 := fun hm => hnd (List.mem_of_mem_take hm)
  unfold uuidFormat
  rw [List.filter_append, filter_dash_cons, List.filter_append, filter_dash_cons,
    List.filter_append, filter_dash_cons, List.filter_append, filter_dash_cons]
  rw [filter_ne_dash_eq_self _ htk, filter_ne_dash_eq_self _ (hsub 8 4),
    filter_ne_dash_eq_self _ (hsub 12 4), filter_ne_dash_eq_self _ (hsub 16 4),
    filter_ne_dash_eq_self _ (hsub2 20)]
  have e20 : (h.drop 16).take 4 ++ h.drop 20 = h.drop 16 := by
    have : h.drop 20 = (h.drop 16).drop 4 := by rw [List.drop_drop]
    rw [this, List.take_append_drop]
  have e16 : (h.drop 12).take 4 ++ h.drop 16 = h.drop 12 := by
    have : h.drop 16 = (h.drop 12).drop 4 := by rw [List.drop_drop]
    rw [this, List.take_append_drop]
  have e12 : (h.drop 8).take 4 ++ h.drop 12 = h.drop 8 := by
    have : h.drop 12 = (h.drop 8).drop 4 := by rw [List.drop_drop]
    rw [this, List.take_append_drop]
  rw [e20, e16, e12, List.take_append_drop]

theorem uuidOfDigest_inj (n m : Nat) (hn : n < 2 ^ 128) (hm : m < 2 ^ 128)
    (h : uuidOfDigest n = uuidOfDigest m) : n = m := by
  have hdata : uuidFormat (hexdigest32 n) = uuidFormat (hexdigest32 m) := by
    have := congrArg String.data h
    simpa [uuidOfDigest] using this
  have hfil := congrArg (List.filter (fun c => c != '-')) hdata
  rw [filter_uuidFormat (hexdigest32 n) (hexNibbles_no_dash 32 n),
    filter_uuidFormat (hexdigest32 m) (hexNibbles_no_dash 32 m)] at hfil
  have h128 : (16 : Nat) ^ 32 = 2 ^ 128 := by norm_num
  exact hexNibbles_inj 32 n m (by omega) (by omega) hfil

/-! ## Dates: `datetime.strptime` / `strftime` model

The repository's date parsers call `datetime.strptime` with fixed format
strings.  CPython's `_strptime` compiles each directive to a regex
(`%m ↦ 1[0-2]|0[1-9]|[1-9]`, `%d ↦ 3[01]|[12]\d|0[1-9]|[1-9]`,
`%Y ↦ \d\d\d\d`, `%y ↦ \d\d` with the 69-rule), matches the whole input,
and hands the fields to the `datetime` constructor, which raises
`ValueError` outside `1 ≤ year ≤ 9999` / valid month length.  Each format
the source uses is embedded as a direct tokenizer; because every numeric
token is followed by a non-digit (a separator or the end), the regex
engine's alternation needs no further backtracking and the tokenizers
below are exact. -/

def isLeapYear (y : Nat) : Bool := y % 4 = 0 && (y % 100 != 0 || y % 400 = 0)

def daysInMonth (y m : Nat) : Nat :=
  if m = 2 then (if isLeapYear y then 29 else 28)
  else if m = 4 ∨ m = 6 ∨ m = 9 ∨ m = 11 then 30
  else 31

structure PyDate where
  year : Nat
  month : Nat
  day : Nat
deriving DecidableEq

def validDate (d : PyDate) : Prop :=
  1 ≤ d.year ∧ d.year ≤ 9999 ∧ 1 ≤ d.month ∧ d.month ≤ 12 ∧
    1 ≤ d.day ∧ d.day ≤ daysInMonth d.year d.month

instance (d : PyDate) : Decidable (validDate d) := by
  unfold validDate
  infer_instance

/-- The `datetime(year, month, day)` constructor: `ValueError` (modelled as
`none`) outside the supported ranges. -/
def mkDatetime (y m d : Nat) : Option PyDate :=
  if 1 ≤ y ∧ y ≤ 9999 ∧ 1 ≤ m ∧ m ≤ 12 ∧ 1 ≤ d ∧ d ≤ daysInMonth y m then
    some ⟨y, m, d⟩
  else none

def digitVal (c : Char) : Nat := c.toNat - 48

/-- `%m` (regex `1[0-2]|0[1-9]|[1-9]`). -/
def parseMonthTok : List Char → Option (Nat × List Char)
  | c1 :: c2 :: rest =>
    if c1 = '1' ∧ '0' ≤ c2 ∧ c2 ≤ '2' then some (10 + digitVal c2, rest)
    else if c1 = '0' ∧ '1' ≤ c2 ∧ c2 ≤ '9' then some (digitVal c2, rest)
    else if '1' ≤ c1 ∧ c1 ≤ '9' then some (digitVal c1, c2 :: rest)
    else none
  | [c1] => if '1' ≤ c1 ∧ c1 ≤ '9' then some (digitVal c1, []) else none
  | [] => none

/-- `%d` (regex `3[01]|[12]\d|0[1-9]|[1-9]`). -/
def parseDayTok : List Char → Option (Nat × List Char)
  | c1 :: c2 :: rest =>
    if c1 = '3' ∧ '0' ≤ c2 ∧ c2 ≤ '1' then some (30 + digitVal c2, rest)
    else if ('1' ≤ c1 ∧ c1 ≤ '2') ∧ c2.isDigit then some (10 * digitVal c1 + digitVal c2, rest)
    else if c1 = '0' ∧ '1' ≤ c2 ∧ c2 ≤ '9' then some (digitVal c2, rest)
    else if '1' ≤ c1 ∧ c1 ≤ '9' then some (digitVal c1, c2 :: rest)
    else none
  | [c1] => if '1' ≤ c1 ∧ c1 ≤ '9' then some (digitVal c1, []) else none
  | [] => none

/-- `%Y` (regex `\d\d\d\d`): exactly four digits. -/
def parseYear4 : List Char → Option (Nat × List Char)
  | a :: b :: c :: d :: rest =>
    if a.isDigit ∧ b.isDigit ∧ c.isDigit ∧ d.isDigit then
      some (1000 * digitVal a + 100 * digitVal b + 10 * digitVal c + digitVal d, rest)
    else none
  | _ => none

/-- `%y` (regex `\d\d`) with CPython's century rule: 00-68 ↦ 2000+y,
69-99 ↦ 1900+y. -/
def parseYear2 : List Char → Option (Nat × List Char)
  | a :: b :: rest =>
    if a.isDigit ∧ b.isDigit then
      let y2 := 10 * digitVal a + digitVal b
      some (if y2 ≤ 68 then 2000 + y2 else 1900 + y2, rest)
    else none
  | _ => none

def expectSep (sep : Char) : List Char → Option (List Char)
  | c :: rest => if c = sep then some rest else none
  | [] => none

/-- Tokenizer for `%m<sep>%d<sep>%Y` over the whole input. -/
def tok_mdY (sep : Char) (l : List Char) : Option (Nat × Nat × Nat) := do
  let (m, l) ← parseMonthTok l
  let l ← expectSep sep l
  let (d, l) ← parseDayTok l
  let l ← expectSep sep l
  let (y, l) ← parseYear4 l
  if l = [] then some (y, m, d) else none

/-- Tokenizer for `%d<sep>%m<sep>%Y` over the whole input. -/
def tok_dmY (sep : Char) (l : List Char) : Option (Nat × Nat × Nat) := do
  let (d, l) ← parseDayTok l
  let l ← expectSep sep l
  let (m, l) ← parseMonthTok l
  let l ← expectSep sep l
  let (y, l) ← parseYear4 l
  if l = [] then some (y, m, d) else none

/-- Tokenizer for `%Y-%m-%d` over the whole input. -/
def tok_Ymd (l : List Char) : Option (Nat × Nat × Nat) := do
  let (y, l) ← parseYear4 l
  let l ← expectSep '-' l
  let (m, l) ← parseMonthTok l
  let l ← expectSep '-' l
  let (d, l) ← parseDayTok l
  if l = [] then some (y, m, d) else none

/-- Tokenizer for `%m/%d/%y` over the whole input. -/
def tok_mdy2 (l : List Char) : Option (Nat × Nat × Nat) := do
  let (m, l) ← parseMonthTok l
  let l ← expectSep '/' l
  let (d, l) ← parseDayTok l
  let l ← expectSep '/' l
  let (y, l) ← parseYear2 l
  if l = [] then some (y, m, d) else none

/-- `datetime.strptime(s, fmt)`: tokenize, then the `datetime`
constructor. -/
def strptimeWith (tok : List Char → Option (Nat × Nat × Nat)) (s : String) : Option PyDate :=
  match tok s.data with
  | some (y, m, d) => mkDatetime y m d
  | none => none

/-- Decimal rendering of `n`, left-padded with zeros to `width`. -/
def padNat (width n : Nat) : List Char :=
  let ds := Nat.toDigits 10 n
  List.replicate (width - ds.length) '0' ++ ds

/-- `dt.strftime('%Y-%m-%d')`.  (CPython delegates `%Y` to the platform;
for years below 1000 glibc does not zero-pad.  The model zero-pads to four
digits, the behavior on every date the repository's parsers can produce
from four-digit or two-digit year tokens.) -/
def strftimeYMD (d : PyDate) : String :=
  String.mk (padNat 4 d.year ++ '-' :: (padNat 2 d.month ++ '-' :: padNat 2 d.day))

/-- `convert_date` (src/llm/client.py:427-439): tries, in order,
`%m/%d/%Y`, `%m-%d-%Y`, `%Y-%m-%d`, `%d/%m/%Y`, `%d-%m-%Y`; the first
success is reformatted `%Y-%m-%d`; otherwise the sentinel.  (Note: no
two-digit-year format is in this list.) -/
def convert_date (s : String) : String :=
  match strptimeWith (tok_mdY '/') s with
  | some dt => strftimeYMD dt
  | none =>
    match strptimeWith (tok_mdY '-') s with
    | some dt => strftimeYMD dt
    | none =>
      match strptimeWith tok_Ymd s with
      | some dt => strftimeYMD dt
      | none =>
        match strptimeWith (tok_dmY '/') s with
        | some dt => strftimeYMD dt
        | none =>
          match strptimeWith (tok_dmY '-') s with
          | some dt => strftimeYMD dt
          | none => "1900-01-01"

/-- `DocumentAIProcessor._convert_date_format`
(src/document_ai/document_ai_processor.py:55-69): empty ↦ sentinel, then
`%m/%d/%y`, then `%m/%d/%Y`, else sentinel. -/
def DocumentAIProcessor_convert_date_format (s : String) : String :=
  if s = "" then "1900-01-01"
  else
    match strptimeWith tok_mdy2 s with
    | some dt => strftimeYMD dt
    | none =>
      match strptimeWith (tok_mdY '/') s with
      | some dt => strftimeYMD dt
      | none => "1900-01-01"

theorem mkDatetime_valid (y m d : Nat) (dt : PyDate) (h : mkDatetime y m d = some dt) :
    validDate dt := by
  unfold mkDatetime at h
  split at h
  · cases h
    exact (by assumption)
  · cases h

theorem strptimeWith_valid (tok : List Char → Option (Nat × Nat × Nat)) (s : String)
    (dt : PyDate) (h : strptimeWith tok s = some dt) : validDate dt := by
  unfold strptimeWith at h
  cases htok : tok s.data with
  | none => rw [htok] at h; cases h
  | some v =>
    rw [htok] at h
    exact mkDatetime_valid v.1 v.2.1 v.2.2 dt h

/-- A canonical `YYYY-MM-DD` string: the rendering of some in-range date. -/
def ValidISO (s : String) : Prop := ∃ dt, validDate dt ∧ s = strftimeYMD dt

theorem convert_date_valid (s : String) :
    convert_date s = "1900-01-01" ∨ ValidISO (convert_date s) := by
  unfold convert_date
  rcases h1 : strptimeWith (tok_mdY '/') s with _ | dt1
  · rcases h2 : strptimeWith (tok_mdY '-') s with _ | dt2
    · rcases h3 : strptimeWith tok_Ymd s with _ | dt3
      · rcases h4 : strptimeWith (tok_dmY '/') s with _ | dt4
        · rcases h5 : strptimeWith (tok_dmY '-') s with _ | dt5
          · exact Or.inl rfl
          · exact Or.inr ⟨dt5, strptimeWith_valid _ s dt5 h5, rfl⟩
        · exact Or.inr ⟨dt4, strptimeWith_valid _ s dt4 h4, rfl⟩
      · exact Or.inr ⟨dt3, strptimeWith_valid _ s dt3 h3, rfl⟩
    · exact Or.inr ⟨dt2, strptimeWith_valid _ s dt2 h2, rfl⟩
  · exact Or.inr ⟨dt1, strptimeWith_valid _ s dt1 h1, rfl⟩

theorem dai_convert_date_valid (s : String) :
    DocumentAIProcessor_convert_date_format s = "1900-01-01" ∨
      ValidISO (DocumentAIProcessor_convert_date_format s) := by
  unfold DocumentAIProcessor_convert_date_format
  by_cases hs : s = ""
  · rw [if_pos hs]; exact Or.inl rfl
  · rw [if_neg hs]
    rcases h1 : strptimeWith tok_mdy2 s with _ | dt1
    · rcases h2 : strptimeWith (tok_mdY '/') s with _ | dt2
      · exact Or.inl rfl
      · exact Or.inr ⟨dt2, strptimeWith_valid _ s dt2 h2, rfl⟩
    · exact Or.inr ⟨dt1, strptimeWith_valid _ s dt1 h1, rfl⟩

/-! ## Python `float()` over ℚ

`float(s)` parses `[ws] [sign] (digits[.digits?] | .digits) [exp] [ws]`
and the parsers here return the exact decimal value in ℚ.  Out of the
model (parse failure, `none`): `inf`/`nan` literals and `_` digit
separators, which no input the claims exercise contains; binary rounding
of the resulting double is likewise irrelevant to the claims, which only
compare exact decimal values. -/

def isPySpace (c : Char) : Bool :=
  c = ' ' ∨ c = '\t' ∨ c = '\n' ∨ c = '\r' ∨ c = '\x0b' ∨ c = '\x0c'

/-- Python `str.strip()` (ASCII whitespace). -/
def pyStrip (l : List Char) : List Char :=
  ((l.dropWhile isPySpace).reverse.dropWhile isPySpace).reverse

def digitsVal (ds : List Char) : Nat := ds.foldl (fun a c => a * 10 + digitVal c) 0

/-- The value of a digit run read as the fractional part. -/
def fracVal (ds : List Char) : ℚ := (digitsVal ds : ℚ) / (10 : ℚ) ^ ds.length

/-- The mantissa of a float literal: `123`, `123.`, `123.45` or `.45`;
at least one digit required. -/
def parseMantissa (l : List Char) : Option (ℚ × List Char) :=
  let intds := l.takeWhile Char.isDigit
  let rest := l.dropWhile Char.isDigit
  match rest with
  | '.' :: rest2 =>
    let fds := rest2.takeWhile Char.isDigit
    if intds = [] ∧ fds = [] then none
    else some ((digitsVal intds : ℚ) + fracVal fds, rest2.dropWhile Char.isDigit)
  | _ => if intds = [] then none else some ((digitsVal intds : ℚ), rest)

/-- The tail of an exponent (`e` already consumed): optional sign and a
nonempty digit run ending the string. -/
def parseExpTail (l : List Char) : Option ℤ :=
  let p : ℤ × List Char :=
    match l with
    | '+' :: r => (1, r)
    | '-' :: r => (-1, r)
    | r => (1, r)
  let ds := p.2.takeWhile Char.isDigit
  if ds = [] ∨ p.2.dropWhile Char.isDigit ≠ [] then none
  else some (p.1 * (digitsVal ds : ℤ))

/-- `float(s)`: `none` models `ValueError`. -/
def pyFloat (s : String) : Option ℚ :=
  let l := pyStrip s.data
  let p : ℚ × List Char :=
    match l with
    | '+' :: r => (1, r)
    | '-' :: r => (-1, r)
    | r => (1, r)
  match parseMantissa p.2 with
  | none => none
  | some (v, rest) =>
    match rest with
    | [] => some (p.1 * v)
    | c :: r2 =>
      if c = 'e' ∨ c = 'E' then
        match parseExpTail r2 with
        | some e => some (p.1 * v * (10 : ℚ) ^ e)
        | none => none
      else none

/-- `BaseProcessor._convert_amount` (src/document_ai/base_processor.py:92-108):
keep digit and `.` characters, then `float`; `0.0` on empty input or
`ValueError`.  (Python's `c.isdigit()` is modelled on ASCII.) -/
def BaseProcessor_convert_amount (s : String) : ℚ :=
  if s = "" then 0
  else
    match pyFloat (String.mk (s.data.filter (fun c => c.isDigit || c == '.'))) with
    | some q => q
    | none => 0

/-- `SimpleInvoiceProcessor._convert_amount`
(src/document_ai/simple_processor.py:31-40): drop `$` and `,`, strip,
`float`; `0.0` on empty input or `ValueError`. -/
def SimpleInvoiceProcessor_convert_amount (s : String) : ℚ :=
  if s = "" then 0
  else
    match pyFloat (String.mk (pyStrip ((s.data.filter (fun c => c ≠ '$')).filter (fun c => c ≠ ',')))) with
    | some q => q
    | none => 0

/-- `convert_currency` inside `_parse_document_ai_output`
(src/llm/client.py:418-425): drop `$` and `,`, strip, `float`; `0.0` on
`ValueError`/`AttributeError` (no early empty-string return here). -/
def convert_currency (s : String) : ℚ :=
  match pyFloat (String.mk (pyStrip ((s.data.filter (fun c => c ≠ '$')).filter (fun c => c ≠ ',')))) with
  | some q => q
  | none => 0

/-! ## Due-date derivation (`calculate_due_date`, src/llm/client.py:441-456)

`datetime + timedelta(days=n)` is date arithmetic on proleptic-Gregorian
ordinals (`date.toordinal`, day 1 = 0001-01-01).  `timedelta` caps `days`
at 999 999 999 and the sum must stay at or below `date(9999,12,31)`;
beyond either bound CPython raises `OverflowError`, which the
`except (ValueError, AttributeError)` handler of `calculate_due_date`
does NOT catch — modelled as `Except.error ()`. -/

def daysBeforeYear (y : Nat) : Nat :=
  let n := y - 1
  n * 365 + n / 4 - n / 100 + n / 400

def daysBeforeMonth (y m : Nat) : Nat :=
  ((List.range (m - 1)).map (fun i => daysInMonth y (i + 1))).sum

/-- `date.toordinal()`. -/
def toOrdinal (d : PyDate) : Nat :=
  daysBeforeYear d.year + daysBeforeMonth d.year d.month + d.day

/-- Month and day from a 0-based day-of-year index (the month scan of
CPython's `_ord2ymd`); `fuel` bounds the twelve-month walk. -/
def monthFromDOY : Nat → Nat → Nat → Nat → Nat × Nat
  | 0, _, m, doy => (m, doy + 1)
  | fuel + 1, y, m, doy =>
    if doy < daysInMonth y m then (m, doy + 1)
    else monthFromDOY fuel y (m + 1) (doy - daysInMonth y m)

/-- `date.fromordinal` (CPython `_ord2ymd`). -/
def fromOrdinal (nn : Nat) : PyDate :=
  let n0 := nn - 1
  let n400 := n0 / 146097
  let r1 := n0 % 146097
  let n100 := r1 / 36524
  let r2 := r1 % 36524
  let n4 := r2 / 1461
  let r3 := r2 % 1461
  let n1 := r3 / 365
  let r4 := r3 % 365
  let year := n400 * 400 + n100 * 100 + n4 * 4 + n1 + 1
  if n1 = 4 ∨ n100 = 4 then ⟨year - 1, 12, 31⟩
  else
    let md := monthFromDOY 11 year 1 r4
    ⟨year, md.1, md.2⟩

def natFromDigits (ds : List Char) : Nat := ds.foldl (fun a c => a * 10 + digitVal c) 0

def ntoPhrase : List Char := "NTO is issued at ".data

def daysSuffix : List Char := " days".data

/-- Match the regex `NTO is issued at (\d+) days` anchored here: the
literal phrase, a maximal nonempty digit run, then the literal
`" days"`. -/
def matchNTOHere (l : List Char) : Option Nat :=
  if ntoPhrase.isPrefixOf l then
    let rest := l.drop ntoPhrase.length
    let ds := rest.takeWhile Char.isDigit
    if ds ≠ [] ∧ daysSuffix.isPrefixOf (rest.dropWhile Char.isDigit) then
      some (natFromDigits ds)
    else none
  else none

/-- `re.search(r'NTO is issued at (\d+) days', terms)`: the leftmost
position with a match. -/
def searchNTO : List Char → Option Nat
  | [] => none
  | c :: rest =>
    match matchNTOHere (c :: rest) with
    | some n => some n
    | none => searchNTO rest

/-- `date(9999, 12, 31).toordinal()`: the largest ordinal `datetime`
supports. -/
def maxOrdinal : Nat := 3652059

/-- The `timedelta` bound on `days`. -/
def maxTimedeltaDays : Nat := 999999999

/-- `calculate_due_date` (src/llm/client.py:441-456): parse the invoice
date as `%Y-%m-%d` (`ValueError` caught ↦ sentinel), search the
payment terms for the net-days clause (no match ↦ sentinel), add the day
count (`OverflowError` past `timedelta`'s or `datetime`'s range is NOT
caught: `Except.error ()`). -/
def calculate_due_date (invoice_date payment_terms : String) : Except Unit String :=
  match strptimeWith tok_Ymd invoice_date with
  | none => .ok "1900-01-01"
  | some dt =>
    match searchNTO payment_terms.data with
    | none => .ok "1900-01-01"
    | some n =>
      if n ≤ maxTimedeltaDays ∧ toOrdinal dt + n ≤ maxOrdinal then
        .ok (strftimeYMD (fromOrdinal (toOrdinal dt + n)))
      else .error ()

/-- A line item as the `float`-field dictionaries the processors build. -/
structure LineItemQ where
  description : String
  quantity : ℚ
  unit_price : ℚ
  amount : ℚ
deriving DecidableEq

/-- The structured record `_parse_document_ai_output` builds. -/
structure ParsedInvoice where
  invoice_number : String
  invoice_date : String
  due_date : String
  total_amount : ℚ
  vendor_name : String
  vendor_address : String
  line_items : List LineItemQ
  payment_terms : String
  notes : String
  raw_data : String
deriving DecidableEq

/-- Python `dict.get(k, default)` over an association list (keys unique,
first match). -/
def dictGet (entities : List (String × String)) (k : String) : String :=
  match entities.lookup k with
  | some v => v
  | none => ""

/-- `LLMClient._parse_document_ai_output` (src/llm/client.py:458-481):
normalize the extracted entities; derive the due date only when the
invoice date parsed and payment terms are nonempty.  An uncaught
`OverflowError` inside `calculate_due_date` propagates. -/
def LLMClient_parse_document_ai_output (text : String) (entities : List (String × String))
    (line_items : List LineItemQ) : Except Unit ParsedInvoice :=
  let inv_date := convert_date (dictGet entities "invoice_date")
  let terms := dictGet entities "payment_terms"
  let base : ParsedInvoice :=
    { invoice_number := dictGet entities "invoice_id"
      invoice_date := inv_date
      due_date := "1900-01-01"
      total_amount := convert_currency (dictGet entities "total_amount")
      vendor_name := dictGet entities "supplier_name"
      vendor_address := dictGet entities "supplier_address"
      line_items := line_items
      payment_terms := terms
      notes := ""
      raw_data := text }
  if inv_date ≠ "1900-01-01" ∧ terms ≠ "" then
    match calculate_due_date inv_date terms with
    | .ok dd => .ok { base with due_date := dd }
    | .error e => .error e
  else .ok base

/-! ## `json.loads` model

A JSON value and a strict recursive-descent parser (fuel-bounded for
termination; the fuel, twice the input length, never runs out on an input
the real parser accepts).  Out of the model: `\uXXXX` string escapes.
`json.loads` semantics mirrored: whole input consumed, strict number
grammar (no leading zeros, no leading `+`/`.`), `true`/`false`/`null`
literals, later object keys parsed in order. -/

inductive JVal where
  | null : JVal
  | bool : Bool → JVal
  | num : ℚ → JVal
  | str : String → JVal
  | arr : List JVal → JVal
  | obj : List (String × JVal) → JVal

def jsonWs (c : Char) : Bool := c = ' ' ∨ c = '\t' ∨ c = '\n' ∨ c = '\r'

def skipWs (l : List Char) : List Char := l.dropWhile jsonWs

def escChar (c : Char) : Option Char :=
  if c = '"' then some '"'
  else if c = '\\' then some '\\'
  else if c = '/' then some '/'
  else if c = 'n' then some '\n'
  else if c = 't' then some '\t'
  else if c = 'r' then some '\r'
  else if c = 'b' then some '\x08'
  else if c = 'f' then some '\x0c'
  else none

/-- The body of a JSON string (opening quote consumed). -/
def jstrAux (acc : List Char) : List Char → Option (String × List Char)
  | [] => none
  | c :: rest =>
    if c = '"' then some (String.mk acc.reverse, rest)
    else if c = '\\' then
      match rest with
      | [] => none
      | e :: rest2 =>
        match escChar e with
        | some ec => jstrAux (ec :: acc) rest2
        | none => none
    else jstrAux (c :: acc) rest

/-- A JSON number: `-? (0|[1-9]\d*) (.\d+)? ([eE][+-]?\d+)?`. -/
def parseJNum (l : List Char) : Option (ℚ × List Char) :=
  let p : ℚ × List Char := match l with | '-' :: r => (-1, r) | r => (1, r)
  let ds := p.2.takeWhile Char.isDigit
  let r1 := p.2.dropWhile Char.isDigit
  if ds = [] then none
  else if 2 ≤ ds.length ∧ ds.head? = some '0' then none
  else
    let withInt : ℚ := (digitsVal ds : ℚ)
    match r1 with
    | '.' :: r2 =>
      let fds := r2.takeWhile Char.isDigit
      if fds = [] then none
      else
        let v := withInt + fracVal fds
        let r3 := r2.dropWhile Char.isDigit
        match r3 with
        | c :: r4 =>
          if c = 'e' ∨ c = 'E' then jnumExp (p.1 * v) r4
          else some (p.1 * v, r3)
        | [] => some (p.1 * v, [])
    | c :: r4 =>
      if c = 'e' ∨ c = 'E' then jnumExp (p.1 * withInt) r4
      else some (p.1 * withInt, r1)
    | [] => some (p.1 * withInt, [])
where
  /-- exponent tail inside a larger document: sign, nonempty digits. -/
  jnumExp (v : ℚ) (l : List Char) : Option (ℚ × List Char) :=
    let p : ℤ × List Char := match l with
      | '+' :: r => (1, r)
      | '-' :: r => (-1, r)
      | r => (1, r)
    let ds := p.2.takeWhile Char.isDigit
    if ds = [] then none
    else some (v * (10 : ℚ) ^ (p.1 * (digitsVal ds : ℤ)), p.2.dropWhile Char.isDigit)

mutual

def parseJVal : Nat → List Char → Option (JVal × List Char)
  | 0, _ => none
  | fuel + 1, l =>
    match skipWs l with
    | [] => none
    | c :: rest =>
      if c = '\x7b' then parseJObj fuel (skipWs rest) true
      else if c = '[' then parseJArr fuel (skipWs rest) true
      else if c = '"' then
        match jstrAux [] rest with
        | some (s, r) => some (JVal.str s, r)
        | none => none
      else if "true".data.isPrefixOf (c :: rest) then some (JVal.bool true, (c :: rest).drop 4)
      else if "false".data.isPrefixOf (c :: rest) then some (JVal.bool false, (c :: rest).drop 5)
      else if "null".data.isPrefixOf (c :: rest) then some (JVal.null, (c :: rest).drop 4)
      else
        match parseJNum (c :: rest) with
        | some (q, r) => some (JVal.num q, r)
        | none => none

/-- Array items after `[` (`first = true` before any item). -/
def parseJArr : Nat → List Char → Bool → Option (JVal × List Char)
  | 0, _, _ => none
  | fuel + 1, l, first =>
    match skipWs l with
    | ']' :: rest => if first then some (JVal.arr [], rest) else none
    | l2 =>
      match parseJVal fuel l2 with
      | none => none
      | some (v, r) =>
        match skipWs r with
        | ',' :: r2 =>
          match parseJArr fuel r2 false with
          | some (JVal.arr vs, r3) => some (JVal.arr (v :: vs), r3)
          | _ => none
        | ']' :: r2 => some (JVal.arr [v], r2)
        | _ => none

/-- Object members after `{` (`first = true` before any member). -/
def parseJObj : Nat → List Char → Bool → Option (JVal × List Char)
  | 0, _, _ => none
  | fuel + 1, l, first =>
    match skipWs l with
    | '\x7d' :: rest => if first then some (JVal.obj [], rest) else none
    | '"' :: rest =>
      match jstrAux [] rest with
      | none => none
      | some (k, r) =>
        match skipWs r with
        | ':' :: r2 =>
          match parseJVal fuel r2 with
          | none => none
          | some (v, r3) =>
            match skipWs r3 with
            | ',' :: r4 =>
              match parseJObj fuel r4 false with
              | some (JVal.obj kvs, r5) => some (JVal.obj ((k, v) :: kvs), r5)
              | _ => none
            | '\x7d' :: r4 => some (JVal.obj [(k, v)], r4)
            | _ => none
        | _ => none
    | _ => none

end

/-- `json.loads(s)`: parse one value consuming the whole input. -/
def pyJsonLoads (s : String) : Option JVal :=
  match parseJVal (2 * s.length + 4) s.data with
  | some (v, rest) => if skipWs rest = [] then some v else none
  | none => none

/-! ## The two LLM-refinement implementations -/

/-- The markdown-fence cleanup of
`GeminiInvoiceProcessor.refine_invoice_data`
(src/document_ai/gemini_processor.py:184-189): drop a leading
`` ```json `` and a trailing `` ``` ``. -/
def stripFences (t : List Char) : List Char :=
  let t1 := if "```json".data.isPrefixOf t then t.drop 7 else t
  if "```".data.isSuffixOf t1 then t1.take (t1.length - 3) else t1

/-- `GeminiInvoiceProcessor.refine_invoice_data`
(src/document_ai/gemini_processor.py:140-198), restricted to the
line-items slot it updates: call the model (`outcome`: the response text,
or `.error` for any exception incl. timeouts), strip the response, strip
fences, `json.loads`; on success the parsed value REPLACES the item list
wholesale (even when it is `[]` or not a list); any exception path keeps
the existing items. -/
def GeminiInvoiceProcessor_refine_line_items (outcome : Except Unit String) (items : JVal) : JVal :=
  match outcome with
  | .error _ => items
  | .ok text =>
    match pyJsonLoads (String.mk (stripFences (pyStrip text.data))) with
    | some v => v
    | none => items

/-- `GeminiProcessor._parse_response` (src/gemini/processor.py:70-93):
`json.loads` the raw response; on `JSONDecodeError` return the
`{"error": ..., "raw_response": ...}` dictionary (NO fallback to the
structured record here). -/
def GeminiProcessor_parse_response (response_text : String) : JVal :=
  match pyJsonLoads response_text with
  | some v => v
  | none =>
    JVal.obj [("error", JVal.str "Failed to parse Gemini response"),
      ("raw_response", JVal.str response_text)]

/-- `GeminiProcessor.refine_invoice_data` (src/gemini/processor.py:13-31):
any exception from the model call falls back to `document_ai_output`;
a successful call returns whatever `_parse_response` makes of the body. -/
def GeminiProcessor_refine_invoice_data (outcome : Except Unit String)
    (document_ai_output : JVal) : JVal :=
  match outcome with
  | .error _ => document_ai_output
  | .ok text => GeminiProcessor_parse_response text

/-! ## Line-item extraction

Document AI's response objects are modelled by their fields the
extractors read: entities with a type, a mention text and typed
properties; for the table/flat paths, the first page's tables (lists of
body rows, each a list of cell texts) and the raw document text. -/

structure DAProperty where
  type_ : String
  mention_text : String
deriving DecidableEq

structure DAEntity where
  type_ : String
  mention_text : String
  properties : List DAProperty
deriving DecidableEq

/-- The §3 line-item filter, as a Boolean predicate: keep a row iff the
description is nonempty or some numeric field is positive. -/
def keepLineItemB (it : LineItemQ) : Bool :=
  it.description != "" || decide (0 < it.quantity) || decide (0 < it.unit_price)
    || decide (0 < it.amount)

/-- The dict comprehension `{prop.type_: prop.mention_text for prop in
entity.properties}`: later duplicates overwrite, so a key's value is the
LAST property of that type; `dict.get(k, d)` then defaults. -/
def propsDictGet (props : List DAProperty) (k default : String) : String :=
  match (props.filter (fun p => p.type_ = k)).getLast? with
  | some p => p.mention_text
  | none => default

/-- `BaseProcessor._extract_line_items`
(src/document_ai/base_processor.py:117-152): every `line_item` entity is
shaped via the property dictionary, and a row is appended only when the
all-zero/empty filter passes. -/
def BaseProcessor_extract_line_items (entities : List DAEntity) : List LineItemQ :=
  (entities.filter (fun e => e.type_ = "line_item")).filterMap (fun e =>
    let description := propsDictGet e.properties "line_item/description" ""
    let quantity := BaseProcessor_convert_amount (propsDictGet e.properties "line_item/quantity" "0")
    let unit_price := BaseProcessor_convert_amount (propsDictGet e.properties "line_item/unit_price" "0")
    let amount := BaseProcessor_convert_amount (propsDictGet e.properties "line_item/amount" "0")
    if description ≠ "" ∨ 0 < quantity ∨ 0 < unit_price ∨ 0 < amount then
      some ⟨description, quantity, unit_price, amount⟩
    else none)

/-- `_get_nested_entity`: the FIRST property of the given type, else `""`. -/
def getNestedEntity (props : List DAProperty) (k : String) : String :=
  match props.find? (fun p => p.type_ = k) with
  | some p => p.mention_text
  | none => ""

/-- `SimpleInvoiceProcessor._extract_line_items`
(src/document_ai/simple_processor.py:112-127): every `line_item` entity
is appended — there is NO all-zero/empty filter on this path. -/
def SimpleInvoiceProcessor_extract_line_items (entities : List DAEntity) : List LineItemQ :=
  (entities.filter (fun e => e.type_ = "line_item")).map (fun e =>
    { description := getNestedEntity e.properties "item_description"
      quantity := SimpleInvoiceProcessor_convert_amount (getNestedEntity e.properties "quantity")
      unit_price := SimpleInvoiceProcessor_convert_amount (getNestedEntity e.properties "unit_price")
      amount := SimpleInvoiceProcessor_convert_amount (getNestedEntity e.properties "amount") })

/-- A line item of the table/flat-text paths, whose numeric fields can be
Python `None` (empty cell). -/
structure TLineItem where
  description : String
  quantity : Option ℚ
  unit_price : Option ℚ
  amount : Option ℚ
deriving DecidableEq

/-- One numeric cell of a table row: `None` for a blank cell, the parsed
float otherwise; a parse failure raises `ValueError` (`.error`), skipping
the row. -/
def cellNum (stripDollar : Bool) (cell : String) : Except Unit (Option ℚ) :=
  let t := pyStrip cell.data
  if t = [] then .ok none
  else
    let t2 := if stripDollar then t.filter (fun c => c ≠ '$') else t
    match pyFloat (String.mk t2) with
    | some q => .ok (some q)
    | none => .error ()

/-- The description of a table row
(src/document_ai/document_ai_processor.py:117-122): stripped cell 0, or,
when that is empty and a fifth cell exists, stripped cell 4. -/
def tableDescription (cells : List String) : String :=
  if String.mk (pyStrip (cells.getD 0 "").data) = "" ∧ 4 < cells.length then
    String.mk (pyStrip (cells.getD 4 "").data)
  else String.mk (pyStrip (cells.getD 0 "").data)

def tableRowItem (cells : List String) : Option TLineItem :=
  if 4 ≤ cells.length then
    match cellNum false (cells.getD 1 ""), cellNum true (cells.getD 2 ""),
        cellNum true (cells.getD 3 "") with
    | .ok q, .ok up, .ok am =>
      if tableDescription cells ≠ "" ∧ (q ≠ none ∨ am ≠ none) then
        some ⟨tableDescription cells, q, up, am⟩
      else none
    | _, _, _ => none
  else none

/-- All table rows of the first page, in order. -/
def DocumentAIProcessor_table_items (tables : List (List (List String))) : List TLineItem :=
  (tables.map (fun t => t.filterMap tableRowItem)).flatten

/-- Python `str.split()` (split on whitespace runs, dropping empties). -/
def splitWsAux : List Char → List Char → List String
  | [], acc => if acc = [] then [] else [String.mk acc.reverse]
  | c :: cs, acc =>
    if isPySpace c then
      if acc = [] then splitWsAux cs []
      else String.mk acc.reverse :: splitWsAux cs []
    else splitWsAux cs (c :: acc)

/-- Python `' '.join`. -/
def joinSpace : List String → String
  | [] => ""
  | [s] => s
  | s :: rest => s ++ " " ++ joinSpace rest

/-- One line of the flat-text fallback
(src/document_ai/document_ai_processor.py:139-155): first token the
quantity, last two tokens the `$`-stripped unit price and amount, middle
tokens the description; kept only if all three floats parse. -/
def flatLineItem (line : String) : Option TLineItem :=
  let parts := splitWsAux line.data []
  if 4 ≤ parts.length then
    match pyFloat (parts.getD 0 ""),
        pyFloat (String.mk ((parts.getD (parts.length - 2) "").data.filter (fun c => c ≠ '$'))),
        pyFloat (String.mk ((parts.getD (parts.length - 1) "").data.filter (fun c => c ≠ '$'))) with
    | some q, some up, some am =>
      some ⟨joinSpace ((parts.drop 1).take (parts.length - 3)), some q, some up, some am⟩
    | _, _, _ => none
  else none

/-- Python `text.split('\n')` (empties kept). -/
def splitNlAux : List Char → List Char → List String
  | [], acc => [String.mk acc.reverse]
  | c :: cs, acc =>
    if c = '\n' then String.mk acc.reverse :: splitNlAux cs []
    else splitNlAux cs (c :: acc)

/-- `DocumentAIProcessor._extract_line_items`
(src/document_ai/document_ai_processor.py:101-157): table rows first; the
flat-text scan runs only when the table pass found nothing.  (`tables`
models `document.pages[0].tables`, `text` models `document.text`; a
response with no pages raises `IndexError`, outside this model.) -/
def DocumentAIProcessor_extract_line_items (tables : List (List (List String)))
    (text : String) : List TLineItem :=
  let items := DocumentAIProcessor_table_items tables
  if items = [] then (splitNlAux text.data []).filterMap flatLineItem else items

/-! ### Invariants of the extractors -/

theorem string_mk_ne_empty (l : List Char) (h : l ≠ []) : String.mk l ≠ "" := by
  intro heq
  exact h (by simpa using congrArg String.data heq)

theorem splitWsAux_ne_empty (l : List Char) :
    ∀ acc s, s ∈ splitWsAux l acc → s ≠ "" := by
  induction l with
  | nil =>
    intro acc s hs
    unfold splitWsAux at hs
    split at hs
    · simp at hs
    · simp at hs
      subst hs
      rename_i hacc
      exact string_mk_ne_empty _ (by simpa using hacc)
  | cons c cs ih =>
    intro acc s hs
    unfold splitWsAux at hs
    by_cases hc : isPySpace c
    · rw [if_pos hc] at hs
      by_cases hacc : acc = []
      · rw [if_pos hacc] at hs
        exact ih [] s hs
      · rw [if_neg hacc] at hs
        rcases List.mem_cons.mp hs with h1 | h2
        · subst h1
          exact string_mk_ne_empty _ (by simpa using hacc)
        · exact ih [] s h2
    · rw [if_neg hc] at hs
      exact ih (c :: acc) s hs

theorem joinSpace_ne_empty (a : String) (rest : List String) (ha : a ≠ "") :
    joinSpace (a :: rest) ≠ "" := by
  cases rest with
  | nil => exact ha
  | cons b bs =>
    intro heq
    have h2 : a ++ " " ++ joinSpace (b :: bs) = "" := heq
    have hlen := congrArg String.length h2
    rw [String.length_append, String.length_append] at hlen
    have h1 : (" " : String).length = 1 := rfl
    have h0 : ("" : String).length = 0 := rfl
    omega

theorem keepLineItemB_iff (it : LineItemQ) : keepLineItemB it = true ↔
    (it.description ≠ "" ∨ 0 < it.quantity ∨ 0 < it.unit_price ∨ 0 < it.amount) := by
  simp [keepLineItemB, Bool.or_eq_true, bne_iff_ne, decide_eq_true_iff, or_assoc]

theorem base_extract_keeps (entities : List DAEntity) :
    (BaseProcessor_extract_line_items entities).all keepLineItemB = true := by
  rw [List.all_eq_true]
  intro it hit
  unfold BaseProcessor_extract_line_items at hit
  obtain ⟨e, _, heq⟩ := List.mem_filterMap.mp hit
  dsimp only at heq
  split at heq
  · rename_i hcond
    cases heq
    exact (keepLineItemB_iff _).mpr hcond
  · cases heq

theorem tableRowItem_desc (cells : List String) (it : TLineItem)
    (h : tableRowItem cells = some it) : it.description ≠ "" := by
  unfold tableRowItem at h
  split at h
  · split at h
    · rename_i q up am _ _ _
      by_cases hcond : tableDescription cells ≠ "" ∧ (q ≠ none ∨ am ≠ none)
      · rw [if_pos hcond] at h
        cases h
        exact hcond.1
      · rw [if_neg hcond] at h
        cases h
    · cases h
  · cases h

theorem flatLineItem_desc (line : String) (it : TLineItem)
    (h : flatLineItem line = some it) : it.description ≠ "" := by
  unfold flatLineItem at h
  dsimp only at h
  split at h
  · rename_i hlen
    split at h
    · rename_i q up am _ _ _
      cases h
      have hslice : ((splitWsAux line.data []).drop 1).take ((splitWsAux line.data []).length - 3) ≠ [] := by
        intro hnil
        have := congrArg List.length hnil
        simp [List.length_take, List.length_drop] at this
        omega
      cases hsl : ((splitWsAux line.data []).drop 1).take ((splitWsAux line.data []).length - 3) with
      | nil => exact absurd hsl hslice
      | cons a rest =>
        have hamem : a ∈ splitWsAux line.data [] :=
          List.mem_of_mem_drop (List.mem_of_mem_take (hsl ▸ List.mem_cons_self a rest))
        have hane : a ≠ "" := splitWsAux_ne_empty line.data [] a hamem
        exact joinSpace_ne_empty a rest hane
    · cases h
  · cases h

theorem docai_extract_desc (tables : List (List (List String))) (text : String) :
    ∀ it ∈ DocumentAIProcessor_extract_line_items tables text, it.description ≠ "" := by
  intro it hit
  unfold DocumentAIProcessor_extract_line_items at hit
  dsimp only at hit
  split at hit
  · obtain ⟨line, _, hsome⟩ := List.mem_filterMap.mp hit
    exact flatLineItem_desc line it hsome
  · unfold DocumentAIProcessor_table_items at hit
    obtain ⟨l, hl, hitl⟩ := List.mem_flatten.mp hit
    obtain ⟨t, _, hteq⟩ := List.mem_map.mp hl
    subst hteq
    obtain ⟨cells, _, hsome⟩ := List.mem_filterMap.mp hitl
    exact tableRowItem_desc cells it hsome

/-! ### Case shape of the amount converters -/

theorem base_amount_cases (s : String) :
    BaseProcessor_convert_amount s = 0 ∨
      ∃ q, pyFloat (String.mk (s.data.filter (fun c => c.isDigit || c == '.'))) = some q ∧
        BaseProcessor_convert_amount s = q := by
  unfold BaseProcessor_convert_amount
  by_cases hs : s = ""
  · rw [if_pos hs]
    exact Or.inl rfl
  · rw [if_neg hs]
    cases hp : pyFloat (String.mk (s.data.filter (fun c => c.isDigit || c == '.'))) with
    | none => exact Or.inl rfl
    | some q => exact Or.inr ⟨q, rfl, rfl⟩

theorem simple_amount_cases (s : String) :
    SimpleInvoiceProcessor_convert_amount s = 0 ∨
      ∃ q, pyFloat (String.mk (pyStrip ((s.data.filter (fun c => c ≠ '$')).filter (fun c => c ≠ ',')))) = some q ∧
        SimpleInvoiceProcessor_convert_amount s = q := by
  unfold SimpleInvoiceProcessor_convert_amount
  by_cases hs : s = ""
  · rw [if_pos hs]
    exact Or.inl rfl
  · rw [if_neg hs]
    cases hp : pyFloat (String.mk (pyStrip ((s.data.filter (fun c => c ≠ '$')).filter (fun c => c ≠ ',')))) with
    | none => exact Or.inl rfl
    | some q => exact Or.inr ⟨q, rfl, rfl⟩

/-! ## Idempotent file registry (`BigQueryClient`, src/bigquery/client.py)

The BigQuery table is an in-memory list of rows; timestamps are a logical
clock passed by the caller.  The metadata columns the code also writes
(filename, size, type, gcs_uri, project) are elided from the row model —
the claims concern the identifier, the counter and the timestamps.  The
BigQuery service itself is assumed available: the broad
`except` at src/bigquery/client.py:183-185, which swallows service
failures and still returns the identifier, is not exercised here. -/

structure InventoryRow where
  file_id : String
  processing_count : Nat
  upload_timestamp : Nat
  last_processing_timestamp : Nat
  is_production : Bool
deriving DecidableEq

/-- `BigQueryClient._update_file_processing`
(src/bigquery/client.py:207-268).  When a `file_path` is given and
`is_production` is truthy, line 222 evaluates `not project_name` with the
local `project_name` not yet assigned (it is only assigned on line 223,
making it local to the function) — an `UnboundLocalError`, modelled
`.error ()`.  With `is_production` falsy the `and` short-circuits and the
UPDATE increments `processing_count` and refreshes
`last_processing_timestamp` on every row carrying the identifier. -/
def BigQueryClient_update_file_processing (fid : String) (file_path : Option String)
    (is_production : Bool) (now : Nat) (st : List InventoryRow) :
    Except Unit (List InventoryRow) :=
  let bump : List InventoryRow := st.map fun r =>
    if r.file_id = fid then
      { r with processing_count := r.processing_count + 1, last_processing_timestamp := now }
    else r
  match file_path with
  | some _ => if is_production then .error () else .ok bump
  | none => .ok bump

/-- `BigQueryClient.get_or_create_file_id` (src/bigquery/client.py:102-185):
derive the identifier, look it up; when found, attempt the counter update
(its exception is caught at lines 141-142 and swallowed); when absent,
insert a fresh row with counter 1.  Returns the identifier and the new
inventory. -/
def BigQueryClient_get_or_create_file_id (md5 : String → Nat) (cwd file_path : String)
    (is_production : Bool) (now : Nat) (st : List InventoryRow) :
    String × List InventoryRow :=
  let fid := BigQueryClient_generate_file_id md5 cwd file_path
  if st.filter (fun r => r.file_id = fid) ≠ [] then
    match BigQueryClient_update_file_processing fid (some file_path) is_production now st with
    | .ok st2 => (fid, st2)
    | .error _ => (fid, st)
  else
    (fid, st ++ [⟨fid, 1, now, now, is_production⟩])

/-- `n` sequential `get_or_create_file_id` calls for the same path from an
empty inventory, the `k`-th at logical time `k`. -/
def getOrCreateIter (md5 : String → Nat) (cwd file_path : String) (is_production : Bool) :
    Nat → List InventoryRow
  | 0 => []
  | k + 1 =>
    (BigQueryClient_get_or_create_file_id md5 cwd file_path is_production k
      (getOrCreateIter md5 cwd file_path is_production k)).2

/-! ## Pipeline orchestration (`InvoiceProcessor.process_invoice`,
src/main.py:42-106)

Collaborator calls are modelled by their outcomes in an environment; the
function returns the result dictionary of the source plus the trace of
collaborator steps actually performed, in order.  `get_or_create_file_id`
never raises (every failure inside it is caught), so step 1 always
yields an identifier. -/

inductive PipeStep where
  | getFileId
  | upload
  | extract
  | refine
  | store
deriving DecidableEq

structure PipelineEnv where
  file_path : String
  is_adhoc : Bool
  project_name : Option String
  fileId : String
  uploadResult : Except String String
  extractResult : Except String (List (String × JVal))
  useGemini : Bool
  geminiOutcome : Except Unit String
  storeResult : Except String Unit

structure ProcessResult where
  success : Bool
  error : Option String
  file_id : Option String
  storage_path : Option String
  data : Option JVal

/-- `os.path.basename`. -/
def basename (s : String) : String :=
  match (splitSlash s.data).getLast? with
  | some c => String.mk c
  | none => ""

/-- Python `dict.update`: existing keys overwritten in place, new keys
appended in order. -/
def dictUpdate (d upd : List (String × JVal)) : List (String × JVal) :=
  (d.map fun kv =>
    match upd.lookup kv.1 with
    | some v => (kv.1, v)
    | none => kv) ++
    upd.filter (fun kv => (d.lookup kv.1).isNone)

/-- The storage path of src/main.py:69. -/
def storagePathOf (env : PipelineEnv) : String :=
  if env.is_adhoc then "invoices/" ++ env.fileId ++ "_" ++ basename env.file_path
  else env.file_path

/-- The metadata dict of src/main.py:73-80. -/
def pipelineMetadata (env : PipelineEnv) (gcs_uri : String) : List (String × JVal) :=
  [("invoice_id", JVal.str env.fileId),
   ("storage_path", JVal.str (storagePathOf env)),
   ("gcs_uri", JVal.str gcs_uri),
   ("is_production", JVal.bool (!env.is_adhoc)),
   ("original_filename", JVal.str (basename env.file_path)),
   ("project_name", match env.project_name with | some p => JVal.str p | none => JVal.null)]

/-- `InvoiceProcessor.process_invoice` (src/main.py:42-106): id, upload,
extract (+metadata), optional Gemini refinement, store; the enclosing
`try` turns any raise into `{"success": False, "error": str(e), ...}`. -/
def InvoiceProcessor_process_invoice (env : PipelineEnv) : ProcessResult × List PipeStep :=
  match env.uploadResult with
  | .error e =>
    ({ success := false, error := some e, file_id := none, storage_path := none, data := none },
      [PipeStep.getFileId, PipeStep.upload])
  | .ok gcs_uri =>
    match env.extractResult with
    | .error e =>
      ({ success := false, error := some e, file_id := none, storage_path := none, data := none },
        [PipeStep.getFileId, PipeStep.upload, PipeStep.extract])
    | .ok doc =>
      let merged := dictUpdate doc (pipelineMetadata env gcs_uri)
      let refined : JVal × List PipeStep :=
        if env.useGemini then
          (GeminiProcessor_refine_invoice_data env.geminiOutcome (JVal.obj merged),
            [PipeStep.refine])
        else (JVal.obj merged, [])
      match env.storeResult with
      | .error e =>
        ({ success := false, error := some e, file_id := none, storage_path := none,
            data := none },
          [PipeStep.getFileId, PipeStep.upload, PipeStep.extract] ++ refined.2 ++ [PipeStep.store])
      | .ok _ =>
        ({ success := true, error := none, file_id := some env.fileId,
            storage_path := some (storagePathOf env), data := some refined.1 },
          [PipeStep.getFileId, PipeStep.upload, PipeStep.extract] ++ refined.2 ++ [PipeStep.store])

/-! ## The claims -/

/-- C1: registry idempotence — evaluation at the failing input.  Two
sequential `get_or_create_file_id` calls for the same path with the
production flag set leave one row whose `processing_count` is still 1,
not 2: the second call's `_update_file_processing` hits the
`UnboundLocalError` on `project_name` (src/bigquery/client.py:222), which
the caller catches and ignores.  With the flag clear the counter reaches
2 as the spec describes. -/
theorem C1_registry_processing_count_bug :
    (getOrCreateIter (fun s => s.length % 2 ^ 128) "/home/user" "invoice.pdf" true 2).map
        (fun r => r.processing_count) = [1] ∧
    (getOrCreateIter (fun s => s.length % 2 ^ 128) "/home/user" "invoice.pdf" false 2).map
        (fun r => r.processing_count) = [2] :=
  ⟨rfl, rfl⟩

/-- C2: the file identifier is a pure function of the normalized absolute
path: it factors through `normpath ∘ abspath` (so content and time never
enter), any two path spellings with the same absolute form get the same
identifier, and distinct digests give distinct identifiers (so distinct
normalized paths collide only when MD5 itself collides). -/
theorem C2_file_id_determinism (md5 : String → Nat) (hmd5 : ∀ s, md5 s < 2 ^ 128)
    (cwd p1 p2 : String) :
    BigQueryClient_generate_file_id md5 cwd p1 =
        uuidOfDigest (md5 (normpath (abspath cwd p1))) ∧
    (abspath cwd p1 = abspath cwd p2 →
      BigQueryClient_generate_file_id md5 cwd p1 = BigQueryClient_generate_file_id md5 cwd p2) ∧
    (md5 (normpath (abspath cwd p1)) ≠ md5 (normpath (abspath cwd p2)) →
      BigQueryClient_generate_file_id md5 cwd p1 ≠ BigQueryClient_generate_file_id md5 cwd p2) := by
  refine ⟨rfl, ?_, ?_⟩
  · intro h
    unfold BigQueryClient_generate_file_id
    rw [h]
  · intro hne heq
    exact hne (uuidOfDigest_inj _ _ (hmd5 _) (hmd5 _) heq)

/-- C2 witness: with a concrete digest function and working directory, the
`./`-prefixed spelling of a path yields the same identifier. -/
theorem C2_file_id_determinism_witness :
    BigQueryClient_generate_file_id (fun s => s.length % 2 ^ 128) "/home/user" "./invoice.pdf" =
      BigQueryClient_generate_file_id (fun s => s.length % 2 ^ 128) "/home/user" "invoice.pdf" :=
  (C2_file_id_determinism (fun s => s.length % 2 ^ 128)
    (fun s => Nat.mod_lt _ (by norm_num)) "/home/user" "./invoice.pdf" "invoice.pdf").2.1 rfl

/-- C3 counterexample: no single merged pattern list exists.
`convert_date` (src/llm/client.py) has no `MM/DD/YY` pattern, so
`"04/30/23"` yields the sentinel, not `"2023-04-30"` as the claim states;
and `_convert_date_format` (src/document_ai/document_ai_processor.py) has
no `YYYY-MM-DD` pattern, so an already-canonical date yields the
sentinel. -/
theorem C3_date_pattern_list_counterexample :
    convert_date "04/30/23" = "1900-01-01" ∧
    DocumentAIProcessor_convert_date_format "2023-04-30" = "1900-01-01" :=
  ⟨rfl, rfl⟩

/-- C3 amended: the two date parsers are total — each returns either the
sentinel or a valid `YYYY-MM-DD` rendering of an in-range date — but they
carry different pattern lists: `convert_date` knows
`%m/%d/%Y, %m-%d-%Y, %Y-%m-%d, %d/%m/%Y, %d-%m-%Y` (no two-digit years),
`_convert_date_format` knows `%m/%d/%y, %m/%d/%Y` only; `""` and
`"not a date"` map to the sentinel in both. -/
theorem C3_date_parsers_amended :
    (∀ s, convert_date s = "1900-01-01" ∨ ValidISO (convert_date s)) ∧
    (∀ s, DocumentAIProcessor_convert_date_format s = "1900-01-01" ∨
      ValidISO (DocumentAIProcessor_convert_date_format s)) ∧
    convert_date "" = "1900-01-01" ∧
    convert_date "not a date" = "1900-01-01" ∧
    convert_date "04/30/2023" = "2023-04-30" ∧
    convert_date "2023-04-30" = "2023-04-30" ∧
    DocumentAIProcessor_convert_date_format "04/30/23" = "2023-04-30" ∧
    DocumentAIProcessor_convert_date_format "" = "1900-01-01" ∧
    DocumentAIProcessor_convert_date_format "not a date" = "1900-01-01" :=
  ⟨convert_date_valid, dai_convert_date_valid, rfl, rfl, rfl, rfl, rfl, rfl, rfl⟩

/-- C4: the amount parsers are total: each returns the parsed value of the
cleaned string or `0` on empty input / parse failure, and the claim's
examples hold for both implementations. -/
theorem C4_amount_parser_total :
    (∀ s, BaseProcessor_convert_amount s = 0 ∨
      ∃ q, pyFloat (String.mk (s.data.filter (fun c => c.isDigit || c == '.'))) = some q ∧
        BaseProcessor_convert_amount s = q) ∧
    (∀ s, SimpleInvoiceProcessor_convert_amount s = 0 ∨
      ∃ q, pyFloat (String.mk (pyStrip ((s.data.filter (fun c => c ≠ '$')).filter (fun c => c ≠ ',')))) = some q ∧
        SimpleInvoiceProcessor_convert_amount s = q) ∧
    BaseProcessor_convert_amount "$1,234.56" = 1234.56 ∧
    BaseProcessor_convert_amount "" = 0 ∧
    BaseProcessor_convert_amount "abc" = 0 ∧
    SimpleInvoiceProcessor_convert_amount "$1,234.56" = 1234.56 ∧
    SimpleInvoiceProcessor_convert_amount "" = 0 ∧
    SimpleInvoiceProcessor_convert_amount "abc" = 0 := by
  refine ⟨base_amount_cases, simple_amount_cases, ?_, ?_, ?_, ?_, ?_, ?_⟩ <;>
    with_unfolding_all rfl

/-- C5 counterexample: with a parseable invoice date and the net-days
clause present but a huge day count, `calculate_due_date` raises an
uncaught `OverflowError` (only `ValueError`/`AttributeError` are caught)
instead of returning the invoice date plus N days or the sentinel. -/
theorem C5_due_date_overflow_counterexample :
    calculate_due_date "2024-01-15" "NTO is issued at 3650000 days" = Except.error () :=
  rfl

/-- C5 amended: when the clause is present, the invoice date parses, and
the sum stays within `timedelta`'s and `datetime`'s ranges, the due date
is the invoice date plus N days in `YYYY-MM-DD`; an unparseable date or a
missing clause yields the sentinel; past either range bound an
`OverflowError` escapes.  The end-to-end record scenario holds as
claimed: total 1200, invoice date 2024-01-15, due date 2024-02-14. -/
theorem C5_due_date_amended :
    (∀ d t, strptimeWith tok_Ymd d = none → calculate_due_date d t = Except.ok "1900-01-01") ∧
    (∀ d t dt, strptimeWith tok_Ymd d = some dt → searchNTO t.data = none →
      calculate_due_date d t = Except.ok "1900-01-01") ∧
    (∀ d t dt n, strptimeWith tok_Ymd d = some dt → searchNTO t.data = some n →
      n ≤ maxTimedeltaDays → toOrdinal dt + n ≤ maxOrdinal →
      calculate_due_date d t = Except.ok (strftimeYMD (fromOrdinal (toOrdinal dt + n)))) ∧
    (∀ d t dt n, strptimeWith tok_Ymd d = some dt → searchNTO t.data = some n →
      ¬(n ≤ maxTimedeltaDays ∧ toOrdinal dt + n ≤ maxOrdinal) →
      calculate_due_date d t = Except.error ()) ∧
    LLMClient_parse_document_ai_output "raw text"
      [("invoice_date", "01/15/2024"), ("total_amount", "$1,200.00"),
       ("payment_terms", "NTO is issued at 30 days")] [] =
    Except.ok (ParsedInvoice.mk "" "2024-01-15" "2024-02-14" 1200 "" "" []
      "NTO is issued at 30 days" "" "raw text") := by
  refine ⟨?_, ?_, ?_, ?_, ?_⟩
  · intro d t hd
    unfold calculate_due_date
    simp only [hd]
  · intro d t dt hd hn
    unfold calculate_due_date
    simp only [hd, hn]
  · intro d t dt n hd hn hb1 hb2
    unfold calculate_due_date
    simp only [hd, hn]
    rw [if_pos ⟨hb1, hb2⟩]
  · intro d t dt n hd hn hnb
    unfold calculate_due_date
    simp only [hd, hn]
    rw [if_neg hnb]
  · with_unfolding_all rfl

/-- C6 counterexample: `SimpleInvoiceProcessor._extract_line_items`
returns an all-zero/empty row for a `line_item` entity with no
properties — the all-zero/empty filter is absent on this path. -/
theorem C6_all_zero_row_counterexample :
    SimpleInvoiceProcessor_extract_line_items [⟨"line_item", "", []⟩] =
      [{ description := "", quantity := 0, unit_price := 0, amount := 0 }] ∧
    keepLineItemB { description := "", quantity := 0, unit_price := 0, amount := 0 } = false :=
  ⟨rfl, rfl⟩

/-- C6 amended: the all-zero/empty filter holds on
`BaseProcessor._extract_line_items`, and the table/flat-text paths of
`DocumentAIProcessor` keep only rows with a nonempty description (which
implies the filter); but `SimpleInvoiceProcessor._extract_line_items`
appends every `line_item` entity unfiltered. -/
theorem C6_line_item_filter_amended :
    (∀ entities, (BaseProcessor_extract_line_items entities).all keepLineItemB = true) ∧
    (∀ tables text, ∀ it ∈ DocumentAIProcessor_extract_line_items tables text,
      it.description ≠ "") :=
  ⟨base_extract_keeps, docai_extract_desc⟩

/-- C7 counterexample: an LLM response that parses as the EMPTY JSON array
replaces a nonempty extracted item list in full — validity of the refined
list requires only that it parses, not that it is nonempty, contrary to
the claim. -/
theorem C7_empty_llm_list_replaces_counterexample :
    GeminiInvoiceProcessor_refine_line_items (Except.ok "[]")
        (JVal.arr [JVal.obj [("description", JVal.str "Widget")]]) = JVal.arr [] ∧
    JVal.arr [] ≠ JVal.arr [JVal.obj [("description", JVal.str "Widget")]] := by
  refine ⟨rfl, ?_⟩
  intro h
  injection h with h2
  exact List.noConfusion h2

/-- C7 amended: reconciliation picks exactly one full list — table items
when the table pass found any, the flat-text fallback only otherwise, and
an LLM response that parses as JSON replaces the list wholesale (even
when empty); a failed call or unparseable body keeps the prior list. -/
theorem C7_reconciliation_amended :
    (∀ tables text, DocumentAIProcessor_table_items tables ≠ [] →
      DocumentAIProcessor_extract_line_items tables text =
        DocumentAIProcessor_table_items tables) ∧
    (∀ tables text, DocumentAIProcessor_table_items tables = [] →
      DocumentAIProcessor_extract_line_items tables text =
        (splitNlAux text.data []).filterMap flatLineItem) ∧
    (∀ text items v, pyJsonLoads (String.mk (stripFences (pyStrip text.data))) = some v →
      GeminiInvoiceProcessor_refine_line_items (Except.ok text) items = v) ∧
    (∀ text items, pyJsonLoads (String.mk (stripFences (pyStrip text.data))) = none →
      GeminiInvoiceProcessor_refine_line_items (Except.ok text) items = items) ∧
    (∀ items, GeminiInvoiceProcessor_refine_line_items (Except.error ()) items = items) := by
  refine ⟨?_, ?_, ?_, ?_, fun items => rfl⟩
  · intro tables text hne
    unfold DocumentAIProcessor_extract_line_items
    dsimp only
    rw [if_neg hne]
  · intro tables text he
    unfold DocumentAIProcessor_extract_line_items
    dsimp only
    rw [if_pos he]
  · intro text items v h
    unfold GeminiInvoiceProcessor_refine_line_items
    simp only [h]
  · intro text items h
    unfold GeminiInvoiceProcessor_refine_line_items
    simp only [h]

/-- C8 counterexample: a refinement call that SUCCEEDS but returns a
non-JSON body does not fall back: `_parse_response` returns the
`{"error", "raw_response"}` dictionary, which replaces the structured
record. -/
theorem C8_non_json_refinement_counterexample :
    GeminiProcessor_refine_invoice_data (Except.ok "not json")
        (JVal.obj [("invoice_number", JVal.str "INV-1")]) =
      JVal.obj [("error", JVal.str "Failed to parse Gemini response"),
        ("raw_response", JVal.str "not json")] ∧
    GeminiProcessor_refine_invoice_data (Except.ok "not json")
        (JVal.obj [("invoice_number", JVal.str "INV-1")]) ≠
      JVal.obj [("invoice_number", JVal.str "INV-1")] := by
  refine ⟨rfl, ?_⟩
  intro h
  rw [show GeminiProcessor_refine_invoice_data (Except.ok "not json")
      (JVal.obj [("invoice_number", JVal.str "INV-1")]) =
    JVal.obj [("error", JVal.str "Failed to parse Gemini response"),
      ("raw_response", JVal.str "not json")] from rfl] at h
  injection h with h2
  have hlen := congrArg List.length h2
  simp at hlen

/-- C8 amended: when the refinement call raises or times out, the pipeline
keeps the pre-refinement record and still succeeds; but a successful call
with a non-JSON body replaces the record with the error dictionary (the
pipeline still reports success and hands that dictionary onward), instead
of falling back. -/
theorem C8_refinement_fallback_amended :
    (∀ rec, GeminiProcessor_refine_invoice_data (Except.error ()) rec = rec) ∧
    (∀ t v rec, pyJsonLoads t = some v →
      GeminiProcessor_refine_invoice_data (Except.ok t) rec = v) ∧
    (∀ t rec, pyJsonLoads t = none →
      GeminiProcessor_refine_invoice_data (Except.ok t) rec =
        JVal.obj [("error", JVal.str "Failed to parse Gemini response"),
          ("raw_response", JVal.str t)]) ∧
    (∀ env doc uri, env.useGemini = true → env.uploadResult = Except.ok uri →
      env.extractResult = Except.ok doc → env.storeResult = Except.ok () →
      env.geminiOutcome = Except.error () →
      (InvoiceProcessor_process_invoice env).1.success = true ∧
      (InvoiceProcessor_process_invoice env).1.data =
        some (JVal.obj (dictUpdate doc (pipelineMetadata env uri)))) ∧
    (∀ env doc uri, env.useGemini = true → env.uploadResult = Except.ok uri →
      env.extractResult = Except.ok doc → env.storeResult = Except.ok () →
      env.geminiOutcome = Except.ok "not json" →
      (InvoiceProcessor_process_invoice env).1.success = true ∧
      (InvoiceProcessor_process_invoice env).1.data =
        some (JVal.obj [("error", JVal.str "Failed to parse Gemini response"),
          ("raw_response", JVal.str "not json")])) := by
  refine ⟨fun rec => rfl, ?_, ?_, ?_, ?_⟩
  · intro t v rec h
    unfold GeminiProcessor_refine_invoice_data GeminiProcessor_parse_response
    simp only [h]
  · intro t rec h
    unfold GeminiProcessor_refine_invoice_data GeminiProcessor_parse_response
    simp only [h]
  · intro env doc uri huse hup hext hstore hgem
    unfold InvoiceProcessor_process_invoice
    simp only [hup, hext, hstore, huse, hgem, if_true]
    exact ⟨trivial, rfl⟩
  · intro env doc uri huse hup hext hstore hgem
    unfold InvoiceProcessor_process_invoice
    simp only [hup, hext, hstore, huse, hgem, if_true]
    exact ⟨trivial, rfl⟩

/-- C9: when the extraction call raises, `process_invoice` returns
`success = False` carrying the raised message, returns no data, performs
the extraction exactly once, and never reaches the warehouse write. -/
theorem C9_extraction_failure (env : PipelineEnv) (uri msg : String)
    (hup : env.uploadResult = Except.ok uri)
    (hext : env.extractResult = Except.error msg) :
    (InvoiceProcessor_process_invoice env).1.success = false ∧
    (InvoiceProcessor_process_invoice env).1.error = some msg ∧
    (InvoiceProcessor_process_invoice env).1.data = none ∧
    (InvoiceProcessor_process_invoice env).2.count PipeStep.extract = 1 ∧
    PipeStep.store ∉ (InvoiceProcessor_process_invoice env).2 := by
  unfold InvoiceProcessor_process_invoice
  simp only [hup, hext]
  refine ⟨trivial, trivial, trivial, by decide, by decide⟩

/-- C9 witness: a concrete environment whose extraction raises. -/
theorem C9_extraction_failure_witness :
    (InvoiceProcessor_process_invoice
      ⟨"invoice.pdf", true, none, "fid", Except.ok "gs://bucket/invoice.pdf",
        Except.error "Document AI unavailable", false, Except.error (),
        Except.ok ()⟩).1.success = false ∧
    (InvoiceProcessor_process_invoice
      ⟨"invoice.pdf", true, none, "fid", Except.ok "gs://bucket/invoice.pdf",
        Except.error "Document AI unavailable", false, Except.error (),
        Except.ok ()⟩).1.error = some "Document AI unavailable" ∧
    (InvoiceProcessor_process_invoice
      ⟨"invoice.pdf", true, none, "fid", Except.ok "gs://bucket/invoice.pdf",
        Except.error "Document AI unavailable", false, Except.error (),
        Except.ok ()⟩).1.data = none ∧
    (InvoiceProcessor_process_invoice
      ⟨"invoice.pdf", true, none, "fid", Except.ok "gs://bucket/invoice.pdf",
        Except.error "Document AI unavailable", false, Except.error (),
        Except.ok ()⟩).2.count PipeStep.extract = 1 ∧
    PipeStep.store ∉ (InvoiceProcessor_process_invoice
      ⟨"invoice.pdf", true, none, "fid", Except.ok "gs://bucket/invoice.pdf",
        Except.error "Document AI unavailable", false, Except.error (),
        Except.ok ()⟩).2 :=
  C9_extraction_failure
    ⟨"invoice.pdf", true, none, "fid", Except.ok "gs://bucket/invoice.pdf",
      Except.error "Document AI unavailable", false, Except.error (), Except.ok ()⟩
    "gs://bucket/invoice.pdf" "Document AI unavailable" rfl rfl

/-- C10: the two file-identifier implementations agree on every input:
`abspath` output is already `normpath`-normal, so hashing
`abspath(p)` (src/main.py) and `normpath(abspath(p))`
(src/bigquery/client.py) hash the same string. -/
theorem C10_generate_file_id_agree (md5 : String → Nat) (cwd p : String) :
    InvoiceProcessor_generate_file_id md5 cwd p = BigQueryClient_generate_file_id md5 cwd p := by
  unfold InvoiceProcessor_generate_file_id BigQueryClient_generate_file_id
  have h : normpath (abspath cwd p) = abspath cwd p := by
    unfold normpath abspath
    exact congrArg String.mk (normpathChars_abspathChars cwd.data p.data)
  rw [h]

end InvoiceIntel
